import Mathlib

/-!
Shallow embedding of `sense_plot.py` (Boldt et al. 2022 reanalysis).

The script reads a featureCounts tab-separated count matrix, computes
log2(TPM + 1) per gene and sample, aggregates mean and standard deviation
per experimental condition, and renders an interactive ribbon-plot
dashboard to a standalone HTML file.

Numeric modelling: counts and lengths are exact rationals; the TPM
computation is carried out in ℚ, and the base-2 logarithm (numpy `log2`)
is modelled by `Real.logb 2` on the cast values.  Effects (console prints
and the HTML file write) are modelled as an explicit effect trace.
-/

namespace SensePlot

/-- A featureCounts dataframe: columns 0-5 are metadata (`Geneid`, `Chr`,
`Start`, `End`, `Strand`, `Length`) and columns 6 onwards are per-sample
read counts.  `rows` holds, for each gene, the list of counts (one per
sample column). -/
structure CountsDF where
  geneIds : List String
  lengths : List ℚ
  sampleNames : List String
  rows : List (List ℚ)
  deriving DecidableEq

/-- The dataframe is well formed: one length per gene, one count row per
gene, and each count row has one entry per sample column. -/
def Rect (df : CountsDF) : Prop :=
  df.rows.length = df.geneIds.length ∧
  df.lengths.length = df.geneIds.length ∧
  ∀ r ∈ df.rows, r.length = df.sampleNames.length

instance (df : CountsDF) : Decidable (Rect df) := by
  unfold Rect
  exact inferInstance

/-- `counts.div(lengths / 1000, axis=0)`: reads per kilobase, row by row. -/
def rpkMatrix (df : CountsDF) : List (List ℚ) :=
  List.zipWith (fun len row => row.map (fun c => c / (len / 1000))) df.lengths df.rows

/-- Column sum of a row-major matrix (pandas `.sum(axis=0)`), missing
entries read as 0. -/
def colSum (m : List (List ℚ)) (j : ℕ) : ℚ :=
  (m.map (fun r => r.getD j 0)).sum

/-- `rpk.sum(axis=0) / 1e6`: the per-sample scaling factor. -/
def scalingFactor (df : CountsDF) (j : ℕ) : ℚ :=
  colSum (rpkMatrix df) j / 1000000

/-- The scaling factors as a list, one per sample column. -/
def sfList (df : CountsDF) : List ℚ :=
  (List.range df.sampleNames.length).map (scalingFactor df)

/-- `rpk.div(scaling_factors, axis=1)`: the TPM matrix. -/
def tpmMatrix (df : CountsDF) : List (List ℚ) :=
  (rpkMatrix df).map (fun row => List.zipWith (fun x s => x / s) row (sfList df))

/-- Result of `calculate_log2_tpm`: the `Geneid` column re-attached to the
log2(TPM + 1) value table. -/
structure TPMResult where
  geneIds : List String
  sampleNames : List String
  values : List (List ℝ)

/-- `calculate_log2_tpm` from `sense_plot.py`: RPK, then TPM, then
`np.log2(tpm + 1)`, with the gene ids re-attached. -/
noncomputable def calculate_log2_tpm (df : CountsDF) : TPMResult :=
  { geneIds := df.geneIds
    sampleNames := df.sampleNames
    values := (tpmMatrix df).map (fun row => row.map (fun q : ℚ => Real.logb 2 ((q : ℝ) + 1))) }

/-- Entry of the returned table at gene row `g`, sample column `j`. -/
noncomputable def logAt (t : TPMResult) (g j : ℕ) : ℝ :=
  (t.values.getD g []).getD j 0

/-- Raw count of gene row `g` in sample column `j`. -/
def countAt (df : CountsDF) (g j : ℕ) : ℚ :=
  (df.rows.getD g []).getD j 0

/-- Length (bp) of gene row `g`. -/
def lengthAt (df : CountsDF) (g : ℕ) : ℚ :=
  df.lengths.getD g 0

/-- The specification's reads-per-kilobase for one gene and sample:
count divided by (length / 1000). -/
def rpkClaim (df : CountsDF) (g j : ℕ) : ℚ :=
  countAt df g j / (lengthAt df g / 1000)

/-- The specification's TPM for one gene and sample: its
reads-per-kilobase divided by (the sum of reads-per-kilobase over all
genes in that sample divided by 1e6). -/
def tpmClaim (df : CountsDF) (g j : ℕ) : ℚ :=
  rpkClaim df g j /
    (((List.range df.geneIds.length).map (fun i => rpkClaim df i j)).sum / 1000000)

/-- Split a character list at every occurrence of `sep` (the separator is
dropped; `n` separators yield `n + 1` fields, so this agrees with
`str.split`). -/
def splitChars (sep : Char) : List Char → List (List Char)
  | [] => [[]]
  | c :: rest =>
    match splitChars sep rest with
    | [] => [[]]
    | f :: fs => if c = sep then [] :: f :: fs else (c :: f) :: fs

/-- The tab-separated fields of one line. -/
def fieldsOf (s : String) : List String :=
  (splitChars '\t' s.data).map String.mk

/-- `sample.split('_')[0]`: the condition is the sample-name prefix before
the first underscore (the whole name when there is none). -/
def conditionOf (s : String) : String :=
  String.mk ((splitChars '_' s.data).headD s.data)

/-- First maximal run of digit characters in a character list
(the regex `(\d+)` of `str.extract`), if any. -/
def extractDigitsAux : List Char → Option (List Char)
  | [] => none
  | c :: rest => if c.isDigit then some (c :: rest.takeWhile Char.isDigit)
                 else extractDigitsAux rest

/-- Digit characters to the natural number they denote. -/
def digitsToNat (l : List Char) : ℕ :=
  l.foldl (fun n c => 10 * n + (c.toNat - 48)) 0

/-- `str.extract('(\d+)').astype(int)`, as an optional value: `none` when
the string holds no digit (where the script would raise). -/
def dayOf? (s : String) : Option ℕ :=
  (extractDigitsAux s.data).map digitsToNat

/-- Total version of the day extraction (junk value 0 when no digit). -/
def dayOf (s : String) : ℕ :=
  (dayOf? s).getD 0

/-- Keep the first occurrence of every element not yet `seen`. -/
def firstDedupAux {α : Type} [DecidableEq α] (seen : List α) : List α → List α
  | [] => []
  | a :: l => if a ∈ seen then firstDedupAux seen l
              else a :: firstDedupAux (a :: seen) l

/-- Keep the first occurrence of every element, in order of first
appearance (pandas `unique`). -/
def firstDedup {α : Type} [DecidableEq α] (l : List α) : List α :=
  firstDedupAux [] l

/-- pandas `melt` on the log2TPM table (column-major long format): for
each sample column in order, one `(gene, sample, value)` row per gene. -/
def meltAux (genes : List String) (m : List (List ℝ)) :
    List String → List (String × String × ℝ)
  | [] => []
  | s :: ns =>
    ((genes.zip (m.map (fun r => r.headD 0))).map (fun q => (q.1, s, q.2))) ++
      meltAux genes (m.map (fun r => r.tail)) ns

/-- The long-format table `plot_data` built from `result_df`. -/
def melt (t : TPMResult) : List (String × String × ℝ) :=
  meltAux t.geneIds t.values t.sampleNames

/-- The `(Geneid, Condition)` key of each long-format row. -/
def meltKeys (t : TPMResult) : List (String × String) :=
  (melt t).map (fun r => (r.1, conditionOf r.2.1))

/-- Lexicographic strict comparison of character lists by code point
(Python's string `<`). -/
def charListLTb : List Char → List Char → Bool
  | [], [] => false
  | [], _ :: _ => true
  | _ :: _, [] => false
  | a :: as, b :: bs =>
    if a.toNat < b.toNat then true
    else if b.toNat < a.toNat then false
    else charListLTb as bs

/-- Strict lexicographic comparison of strings by code point. -/
def strLTb (s t : String) : Bool :=
  charListLTb s.data t.data

lemma charListLTb_asymm :
    ∀ a b, charListLTb a b = true → charListLTb b a = false := by
  intro a
  induction a with
  | nil =>
    intro b _
    cases b with
    | nil => rfl
    | cons y ys => rfl
  | cons x xs ih =>
    intro b hab
    cases b with
    | nil => simp [charListLTb] at hab
    | cons y ys =>
      simp only [charListLTb] at hab ⊢
      by_cases h1 : x.toNat < y.toNat
      · rw [if_neg (by omega), if_pos h1]
      · rw [if_neg h1] at hab
        by_cases h2 : y.toNat < x.toNat
        · rw [if_pos h2] at hab
          simp at hab
        · rw [if_neg h2] at hab
          rw [if_neg h2, if_neg h1]
          exact ih ys hab

lemma charListLTb_trans :
    ∀ a b c, charListLTb a b = true → charListLTb b c = true →
      charListLTb a c = true := by
  intro a
  induction a with
  | nil =>
    intro b c hab hbc
    cases b with
    | nil => simp [charListLTb] at hab
    | cons y ys =>
      cases c with
      | nil => simp [charListLTb] at hbc
      | cons z zs => rfl
  | cons x xs ih =>
    intro b c hab hbc
    cases b with
    | nil => simp [charListLTb] at hab
    | cons y ys =>
      cases c with
      | nil => simp [charListLTb] at hbc
      | cons z zs =>
        simp only [charListLTb] at hab hbc ⊢
        by_cases h1 : x.toNat < y.toNat
        · by_cases h3 : y.toNat < z.toNat
          · rw [if_pos (by omega)]
          · rw [if_neg h3] at hbc
            by_cases h4 : z.toNat < y.toNat
            · rw [if_pos h4] at hbc
              simp at hbc
            · rw [if_pos (by omega)]
        · rw [if_neg h1] at hab
          by_cases h2 : y.toNat < x.toNat
          · rw [if_pos h2] at hab
            simp at hab
          · rw [if_neg h2] at hab
            by_cases h3 : y.toNat < z.toNat
            · rw [if_pos (by omega)]
            · rw [if_neg h3] at hbc
              by_cases h4 : z.toNat < y.toNat
              · rw [if_pos h4] at hbc
                simp at hbc
              · rw [if_neg h4] at hbc
                rw [if_neg (by omega), if_neg (by omega)]
                exact ih ys zs hab hbc

lemma charListLTb_eq_of_not :
    ∀ a b, charListLTb a b = false → charListLTb b a = false → a = b := by
  intro a
  induction a with
  | nil =>
    intro b hab _
    cases b with
    | nil => rfl
    | cons y ys => simp [charListLTb] at hab
  | cons x xs ih =>
    intro b hab hba
    cases b with
    | nil => simp [charListLTb] at hba
    | cons y ys =>
      simp only [charListLTb] at hab hba
      by_cases h1 : x.toNat < y.toNat
      · rw [if_pos h1] at hab
        simp at hab
      · rw [if_neg h1] at hab
        by_cases h2 : y.toNat < x.toNat
        · rw [if_pos h2] at hba
          simp at hba
        · rw [if_neg h2] at hab
          rw [if_neg h1, if_neg h2] at hba
          have hn : x.toNat = y.toNat := by omega
          have hchar : x = y := Char.ext (UInt32.toNat.inj hn)
          rw [hchar, ih ys hab hba]

lemma strLTb_irrefl (s : String) : strLTb s s = false := by
  unfold strLTb
  cases h : charListLTb s.data s.data
  · rfl
  · have h2 := charListLTb_asymm _ _ h
    rw [h2] at h
    exact Bool.noConfusion h

/-- Lexicographic order on groupby keys (pandas sorts group keys). -/
def keyLE (a b : String × String) : Prop :=
  strLTb a.1 b.1 = true ∨ (a.1 = b.1 ∧ strLTb b.2 a.2 = false)

instance : DecidableRel keyLE := fun a b => by
  unfold keyLE
  exact inferInstance

instance : IsTotal (String × String) keyLE := by
  constructor
  intro a b
  unfold keyLE
  cases hab : strLTb a.1 b.1
  · cases hba : strLTb b.1 a.1
    · have he : a.1 = b.1 := by
        simp only [strLTb] at hab hba
        exact String.ext (charListLTb_eq_of_not _ _ hab hba)
      cases hcd : strLTb b.2 a.2
      · exact Or.inl (Or.inr ⟨he, rfl⟩)
      · have h2 : strLTb a.2 b.2 = false := by
          simp only [strLTb] at hcd ⊢
          exact charListLTb_asymm _ _ hcd
        exact Or.inr (Or.inr ⟨he.symm, h2⟩)
    · exact Or.inr (Or.inl rfl)
  · exact Or.inl (Or.inl rfl)

instance : IsTrans (String × String) keyLE := by
  constructor
  intro a b c hab hbc
  unfold keyLE at *
  rcases hab with h1 | ⟨e1, l1⟩
  · rcases hbc with h2 | ⟨e2, _⟩
    · refine Or.inl ?_
      simp only [strLTb] at h1 h2 ⊢
      exact charListLTb_trans _ _ _ h1 h2
    · exact Or.inl (e2 ▸ h1)
  · rcases hbc with h2 | ⟨e2, l2⟩
    · exact Or.inl (e1 ▸ h2)
    · refine Or.inr ⟨e1.trans e2, ?_⟩
      simp only [strLTb] at l1 l2 ⊢
      cases hca : charListLTb c.2.data a.2.data
      · rfl
      · exfalso
        cases hbc2 : charListLTb b.2.data c.2.data
        · have he := charListLTb_eq_of_not _ _ hbc2 l2
          rw [he] at l1
          rw [hca] at l1
          exact Bool.noConfusion l1
        · have h3 := charListLTb_trans _ _ _ hbc2 hca
          rw [h3] at l1
          exact Bool.noConfusion l1

/-- The sorted list of distinct `(Geneid, Condition)` groupby keys. -/
def groupKeysOf (t : TPMResult) : List (String × String) :=
  List.insertionSort keyLE (firstDedup (meltKeys t))

/-- The log2TPM values aggregated for gene `g` and condition `c`: the
long-format rows with that gene and that condition, in table order. -/
def condVals (t : TPMResult) (g c : String) : List ℝ :=
  ((melt t).filter (fun r => decide (r.1 = g ∧ conditionOf r.2.1 = c))).map
    (fun r => r.2.2)

/-- Arithmetic mean of a list (division-by-zero convention for `[]`). -/
noncomputable def listMean (l : List ℝ) : ℝ :=
  l.sum / l.length

/-- Sample variance with denominator `n - 1` (pandas `std`, `ddof=1`). -/
noncomputable def sampleVar (l : List ℝ) : ℝ :=
  (l.map (fun x => (x - listMean l) ^ 2)).sum / ((l.length : ℝ) - 1)

/-- pandas `std` of a group: `NaN` (modelled `none`) for a single row,
otherwise the sample standard deviation. -/
noncomputable def stdOpt (l : List ℝ) : Option ℝ :=
  if l.length ≤ 1 then none else some (Real.sqrt (sampleVar l))

/-- One row of the aggregated `stats` table. -/
structure StatRow where
  gene : String
  cond : String
  mean : ℝ
  std : Option ℝ
  day : ℕ

/-- The aggregated row for one groupby key, with the extracted `Day`. -/
noncomputable def mkStatRow (t : TPMResult) (k : String × String) : StatRow :=
  { gene := k.1
    cond := k.2
    mean := listMean (condVals t k.1 k.2)
    std := stdOpt (condVals t k.1 k.2)
    day := dayOf k.2 }

/-- `plot_data.groupby(['Geneid','Condition'])['log2TPM'].agg(['mean','std'])`
with the `Day` column attached. -/
noncomputable def statsOf (t : TPMResult) : List StatRow :=
  (groupKeysOf t).map (mkStatRow t)

/-- Order used by `stats.sort_values(['Geneid', 'Day'])`. -/
def rowLE (a b : StatRow) : Prop :=
  strLTb a.gene b.gene = true ∨ (a.gene = b.gene ∧ a.day ≤ b.day)

instance : DecidableRel rowLE := fun a b => by
  unfold rowLE
  exact inferInstance

instance : IsTotal StatRow rowLE := by
  constructor
  intro a b
  unfold rowLE
  cases hab : strLTb a.gene b.gene
  · cases hba : strLTb b.gene a.gene
    · have he : a.gene = b.gene := by
        simp only [strLTb] at hab hba
        exact String.ext (charListLTb_eq_of_not _ _ hab hba)
      rcases Nat.le_total a.day b.day with h2 | h2
      · exact Or.inl (Or.inr ⟨he, h2⟩)
      · exact Or.inr (Or.inr ⟨he.symm, h2⟩)
    · exact Or.inr (Or.inl rfl)
  · exact Or.inl (Or.inl rfl)

instance : IsTrans StatRow rowLE := by
  constructor
  intro a b c hab hbc
  unfold rowLE at *
  rcases hab with h1 | ⟨e1, l1⟩
  · rcases hbc with h2 | ⟨e2, _⟩
    · refine Or.inl ?_
      simp only [strLTb] at h1 h2 ⊢
      exact charListLTb_trans _ _ _ h1 h2
    · exact Or.inl (e2 ▸ h1)
  · rcases hbc with h2 | ⟨e2, l2⟩
    · exact Or.inl (e1 ▸ h2)
    · exact Or.inr ⟨e1.trans e2, l1.trans l2⟩

/-- The sorted statistics table used for plotting. -/
noncomputable def sortedStats (t : TPMResult) : List StatRow :=
  List.insertionSort rowLE (statsOf t)

/-- `stats[stats['Geneid'] == gene]`: the per-gene slice of the sorted
statistics table, in table order. -/
def geneStats (stats : List StatRow) (g : String) : List StatRow :=
  stats.filter (fun r => decide (r.gene = g))

/-- One plotly trace (the fields the dashboard logic uses). -/
structure Trace where
  x : List String
  y : List ℝ
  name : String
  visible : Bool
  fillToSelf : Bool

/-- A placeholder trace for out-of-range reads. -/
def trace0 : Trace :=
  { x := [], y := [], name := "", visible := false, fillToSelf := false }

/-- The shaded ribbon trace of the `i`-th gene: x forward then reversed,
y is mean+std forward then mean-std reversed, std `NaN` filled with 0. -/
noncomputable def ribbonTrace (i : ℕ) (g : String) (gs : List StatRow) : Trace :=
  { x := (gs.map (fun r => r.cond)) ++ (gs.map (fun r => r.cond)).reverse
    y := (gs.map (fun r => r.mean + r.std.getD 0)) ++
         (gs.map (fun r => r.mean - r.std.getD 0)).reverse
    name := g ++ "_ribbon"
    visible := decide (i = 0)
    fillToSelf := true }

/-- The mean line trace of the `i`-th gene. -/
noncomputable def lineTrace (i : ℕ) (g : String) (gs : List StatRow) : Trace :=
  { x := gs.map (fun r => r.cond)
    y := gs.map (fun r => r.mean)
    name := g
    visible := decide (i = 0)
    fillToSelf := false }

/-- `stats['Geneid'].unique()`: genes in order of first appearance. -/
def uniqueGenes (stats : List StatRow) : List String :=
  firstDedup (stats.map (fun r => r.gene))

/-- `unique_genes[:num_to_show]` with `num_to_show = 200`. -/
def shownGenes (stats : List StatRow) : List String :=
  (uniqueGenes stats).take 200

/-- `enumerate` starting at `k`. -/
def enumFromN (k : ℕ) : List String → List (ℕ × String)
  | [] => []
  | a :: l => (k, a) :: enumFromN (k + 1) l

/-- The trace list: for each shown gene, its ribbon trace then its mean
line trace. -/
noncomputable def tracesAux (stats : List StatRow) (k : ℕ) :
    List String → List Trace
  | [] => []
  | g :: gs =>
    ribbonTrace k g (geneStats stats g) :: lineTrace k g (geneStats stats g) ::
      tracesAux stats (k + 1) gs

/-- All traces added to the figure. -/
noncomputable def tracesOf (stats : List StatRow) : List Trace :=
  tracesAux stats 0 (shownGenes stats)

/-- One dropdown button. -/
structure Button where
  label : String
  visibility : List Bool
  title : String

/-- A placeholder button for out-of-range reads. -/
def button0 : Button :=
  { label := "", visibility := [], title := "" }

/-- The `i`-th gene's dropdown button: all-`False` visibility of length
`total`, then indices `i*2` and `i*2+1` set `True`. -/
def mkButton (total i : ℕ) (g : String) : Button :=
  { label := g
    visibility := ((List.replicate total false).set (i * 2) true).set (i * 2 + 1) true
    title := "Mean Expression Profile for " ++ g ++ " (± SD)" }

/-- The dropdown button list. -/
noncomputable def buttonsOf (stats : List StatRow) : List Button :=
  (enumFromN 0 (shownGenes stats)).map
    (fun p => mkButton (tracesOf stats).length p.1 p.2)

/-- The assembled figure (traces, dropdown buttons, layout titles). -/
structure Figure where
  traces : List Trace
  buttons : List Button
  title : String
  xaxisTitle : String
  yaxisTitle : String

/-- The figure built from the sorted statistics table. -/
noncomputable def figureOf (stats : List StatRow) : Figure :=
  { traces := tracesOf stats
    buttons := buttonsOf stats
    title := "Mean Expression Profile for " ++ (uniqueGenes stats).headD "" ++ " (± SD)"
    xaxisTitle := "Days (Condition)"
    yaxisTitle := "log2(TPM + 1)" }

/-- Modelled from the spec: `plotly.offline.plot` serializes the chart
object to a standalone browser-viewable HTML document.  The plotly
library is not part of this repository, so the serialization is modelled
as a deterministic rendering of the figure. -/
def renderHTML (fig : Figure) : String :=
  "<html><head><title>" ++ fig.title ++ "</title></head><body>" ++
    String.intercalate "," (fig.traces.map (fun tr => tr.name)) ++
    "</body></html>"

/-- pandas `comment='#'`: drop everything from the first `#` on. -/
def stripComment (l : String) : String :=
  String.mk (l.data.takeWhile (fun c => c ≠ '#'))

/-- The lines actually parsed: comments stripped, empty results dropped. -/
def dataLines (lines : List String) : List String :=
  (lines.map stripComment).filter (fun l => decide (l ≠ ""))

/-- Parse a nonnegative integer field. -/
def parseNat? (s : String) : Option ℕ :=
  if s ≠ "" ∧ s.data.all Char.isDigit then some (digitsToNat s.data) else none

/-- Parse a count or length field as a rational. -/
def parseQ? (s : String) : Option ℚ :=
  (parseNat? s).map (fun n => (n : ℚ))

/-- `pd.read_csv(input_file, sep='\t', comment='#')` specialised to a
featureCounts table: the first surviving line is the header (needing the
`Geneid` and `Length` columns), the rest are gene rows whose columns 6
onwards are counts; `none` when the table is malformed. -/
def parseCounts (lines : List String) : Option CountsDF :=
  match dataLines lines with
  | [] => none
  | header :: body =>
    let cols := fieldsOf header
    if "Geneid" ∈ cols ∧ "Length" ∈ cols ∧
        ∀ r ∈ body, (fieldsOf r).length = cols.length then
      match List.mapM (fun r => parseQ? ((fieldsOf r).getD (cols.indexOf "Length") "")) body,
            List.mapM (fun r => ((fieldsOf r).drop 6).mapM parseQ?) body with
      | some lens, some cts =>
        some { geneIds := body.map (fun r => (fieldsOf r).getD (cols.indexOf "Geneid") "")
               lengths := lens
               sampleNames := cols.drop 6
               rows := cts }
      | _, _ => none
    else none

/-- An observable effect of the script: a console print or a file write. -/
inductive Effect where
  | print (s : String)
  | writeFile (path : String) (content : String)
  deriving DecidableEq

/-- The paths written by an effect trace. -/
def writePaths (effs : List Effect) : List String :=
  effs.filterMap (fun e =>
    match e with
    | Effect.print _ => none
    | Effect.writeFile p _ => some p)

/-- `generate_html_dashboard` from `sense_plot.py`, as an effect trace:
load and parse the input, compute log2(TPM + 1), aggregate and sort the
per-condition statistics, build the figure, and write it as HTML to
`output_html`.  The script's exceptions truncate the trace where they
are raised: a parse failure (`pd.read_csv`) aborts after the first
print; a condition name with no digits makes
`str.extract('(\d+)').astype(int)` raise `ValueError` right after the
aggregation print; an empty statistics table makes `unique_genes[0]`
raise `IndexError` during layout, after the trace-building print but
before `plot` writes anything. -/
noncomputable def generate_html_dashboard
    (content : List String) (input_file output_html : String) : List Effect :=
  Effect.print ("Loading " ++ input_file ++ "...") ::
  match parseCounts content with
  | none => []
  | some df =>
    Effect.print "Calculating log2(TPM + 1)..." ::
    Effect.print "Aggregating data by condition..." ::
    if ∃ r ∈ statsOf (calculate_log2_tpm df), (dayOf? r.cond).isNone = true then
      []
    else
      Effect.print "Generating Interactive Ribbon Plots..." ::
      if uniqueGenes (sortedStats (calculate_log2_tpm df)) = [] then
        []
      else
        [Effect.writeFile output_html
           (renderHTML (figureOf (sortedStats (calculate_log2_tpm df)))),
         Effect.print ("Done! Dashboard saved to " ++ output_html)]

/-- The pipeline stages named one by one, in source order: parse (done by
the caller), normalize (`calculate_log2_tpm`), aggregate and sort
(`sortedStats`), build traces and buttons (`figureOf`), serialize and
write (`renderHTML`). -/
noncomputable def stagedEffects (df : CountsDF) (input_file output_html : String) :
    List Effect :=
  [Effect.print ("Loading " ++ input_file ++ "..."),
   Effect.print "Calculating log2(TPM + 1)...",
   Effect.print "Aggregating data by condition...",
   Effect.print "Generating Interactive Ribbon Plots...",
   Effect.writeFile output_html (renderHTML (figureOf (sortedStats (calculate_log2_tpm df)))),
   Effect.print ("Done! Dashboard saved to " ++ output_html)]

/-- The `__main__` block: probe the filesystem (a map from path to
optional content) for `sense_read_counts`; run the pipeline when it
exists, print an error otherwise. -/
noncomputable def mainEffects (fs : String → Option (List String)) : List Effect :=
  match fs "sense_read_counts" with
  | some content => generate_html_dashboard content "sense_read_counts" "expression_dashboard.html"
  | none => [Effect.print "Error: sense_read_counts not found."]

/-- The specification's selection of values for one condition: walking
the sample columns left to right, take the gene's value at exactly those
columns whose name prefix before the first underscore equals `c`
(`row` is the gene's row of the value table). -/
def selectCols (c : String) : List String → List ℝ → List ℝ
  | [], _ => []
  | s :: ns, row =>
    if conditionOf s = c then row.headD 0 :: selectCols c ns row.tail
    else selectCols c ns row.tail

/-- The value-table row of gene `g`. -/
def rowFor (t : TPMResult) (g : String) : List ℝ :=
  t.values.getD (t.geneIds.indexOf g) []

/-! ### Example data used by the witnesses -/

/-- A small featureCounts dataframe: two genes, two replicate samples of
condition `d04`. -/
def exampleDF : CountsDF :=
  { geneIds := ["g1", "g2"]
    lengths := [1000, 500]
    sampleNames := ["d04_rep1", "d04_rep2"]
    rows := [[1, 3], [2, 5]] }

/-- The same dataframe as a raw tab-separated featureCounts file. -/
def exampleLines : List String :=
  ["# Program:featureCounts v2.0.1",
   "Geneid\tChr\tStart\tEnd\tStrand\tLength\td04_rep1\td04_rep2",
   "g1\tchr1\t1\t1000\t+\t1000\t1\t3",
   "g2\tchr1\t1\t500\t+\t500\t2\t5"]

/-- A readable count file whose single sample column `ctrl` has no digit
in its condition name, so `astype(int)` raises before anything is
written. -/
def crashLines : List String :=
  ["Geneid\tChr\tStart\tEnd\tStrand\tLength\tctrl",
   "g1\tchr1\t1\t1000\t+\t1000\t5"]

/-! ### C3: determinism of the normalization -/

/-- C3: `calculate_log2_tpm` is deterministic: it is a pure function of
the input dataframe, so two runs on equal inputs return equal log2-TPM
tables; no step reads anything but the input table. -/
theorem c3_normalization_deterministic (df1 df2 : CountsDF) (h : df1 = df2) :
    calculate_log2_tpm df1 = calculate_log2_tpm df2 := by
  rw [h]

/-- Witness for C3 at a concrete input. -/
theorem c3_witness :
    calculate_log2_tpm exampleDF = calculate_log2_tpm exampleDF :=
  c3_normalization_deterministic exampleDF exampleDF rfl

/-! ### C2: the dashboard pipeline and its error paths -/

lemma generate_eq_of_parse (content : List String) (f o : String) (df : CountsDF)
    (h : parseCounts content = some df) :
    generate_html_dashboard content f o =
      Effect.print ("Loading " ++ f ++ "...") ::
      Effect.print "Calculating log2(TPM + 1)..." ::
      Effect.print "Aggregating data by condition..." ::
      (if ∃ r ∈ statsOf (calculate_log2_tpm df), (dayOf? r.cond).isNone = true then []
       else
        Effect.print "Generating Interactive Ribbon Plots..." ::
        (if uniqueGenes (sortedStats (calculate_log2_tpm df)) = [] then []
         else [Effect.writeFile o
                 (renderHTML (figureOf (sortedStats (calculate_log2_tpm df)))),
               Effect.print ("Done! Dashboard saved to " ++ o)])) := by
  unfold generate_html_dashboard
  rw [h]

/-- C2 counterexample: a readable tab-separated count file on which
`generate_html_dashboard` does not emit a dashboard: the condition name
`ctrl` has no digits, so the script raises in the aggregation step and
nothing is written. -/
theorem c2_counterexample :
    (parseCounts crashLines).isSome = true ∧
    writePaths (generate_html_dashboard crashLines "sense_read_counts"
      "expression_dashboard.html") = [] := by
  constructor
  · decide
  · decide

/-- C2 as amended: on every readable count file whose condition names
all contain digits and whose statistics table is nonempty,
`generate_html_dashboard` performs exactly the staged pipeline: parse
(comment lines starting with `#` are dropped), normalize with
`calculate_log2_tpm`, aggregate by condition (`sortedStats`), build the
traces and buttons (`figureOf`), and write the rendered dashboard HTML
to the output path, in that order; other readable files abort before the
write. -/
theorem c2_amended_pipeline_stages (lines : List String) (f o : String) (df : CountsDF)
    (h : parseCounts lines = some df)
    (hdig : ∀ r ∈ statsOf (calculate_log2_tpm df), (dayOf? r.cond).isSome = true)
    (hne : uniqueGenes (sortedStats (calculate_log2_tpm df)) ≠ []) :
    generate_html_dashboard lines f o = stagedEffects df f o := by
  rw [generate_eq_of_parse lines f o df h]
  have hnex : ¬ ∃ r ∈ statsOf (calculate_log2_tpm df), (dayOf? r.cond).isNone = true := by
    rintro ⟨r, hr, hn⟩
    have hs := hdig r hr
    rw [Option.isNone_iff_eq_none] at hn
    rw [hn] at hs
    simp at hs
  rw [if_neg hnex, if_neg hne]
  rfl

/-- Witness for the amended C2 at a concrete readable file. -/
theorem c2_witness :
    generate_html_dashboard exampleLines "sense_read_counts" "expression_dashboard.html" =
      stagedEffects exampleDF "sense_read_counts" "expression_dashboard.html" :=
  c2_amended_pipeline_stages exampleLines "sense_read_counts" "expression_dashboard.html"
    exampleDF (by decide) (by decide) (by decide)

/-! ### C7: the only filesystem effect is the single HTML write -/

/-- C7: the program keeps no durable state: the effect trace of
`generate_html_dashboard` never writes any file other than the single
output HTML at the given path — its write-path list is `[o]` or empty —
and the write happens exactly when the input parses, every condition
name contains digits, and the statistics table is nonempty (on the other
paths the script raises first and nothing is written). -/
theorem c7_single_write (content : List String) (f o : String) :
    (writePaths (generate_html_dashboard content f o) = [o] ∨
      writePaths (generate_html_dashboard content f o) = []) ∧
    (∀ df, parseCounts content = some df →
      (∀ r ∈ statsOf (calculate_log2_tpm df), (dayOf? r.cond).isSome = true) →
      uniqueGenes (sortedStats (calculate_log2_tpm df)) ≠ [] →
      writePaths (generate_html_dashboard content f o) = [o]) := by
  cases h : parseCounts content with
  | none =>
    constructor
    · right
      unfold generate_html_dashboard
      rw [h]
      rfl
    · intro df hdf
      exact Option.noConfusion hdf
  | some df =>
    rw [generate_eq_of_parse content f o df h]
    by_cases hex : ∃ r ∈ statsOf (calculate_log2_tpm df), (dayOf? r.cond).isNone = true
    · rw [if_pos hex]
      constructor
      · right
        rfl
      · intro df2 hdf2 hdig _
        injection hdf2 with hdd
        subst hdd
        rcases hex with ⟨r, hr, hn⟩
        have hs := hdig r hr
        rw [Option.isNone_iff_eq_none] at hn
        rw [hn] at hs
        simp at hs
    · rw [if_neg hex]
      by_cases hun : uniqueGenes (sortedStats (calculate_log2_tpm df)) = []
      · rw [if_pos hun]
        constructor
        · right
          rfl
        · intro df2 hdf2 _ hne
          injection hdf2 with hdd
          subst hdd
          exact absurd hun hne
      · rw [if_neg hun]
        exact ⟨Or.inl rfl, fun _ _ _ _ => rfl⟩

/-- Witness for C7 at a concrete run that writes. -/
theorem c7_witness :
    writePaths (generate_html_dashboard exampleLines "sense_read_counts"
      "expression_dashboard.html") = ["expression_dashboard.html"] :=
  (c7_single_write exampleLines "sense_read_counts" "expression_dashboard.html").2
    exampleDF (by decide) (by decide) (by decide)

/-! ### C10: missing input file -/

/-- C10: when run as a script with no `sense_read_counts` file, the
program only prints an error: the pipeline is never entered and nothing
is written. -/
theorem c10_missing_input (fs : String → Option (List String))
    (h : fs "sense_read_counts" = none) :
    mainEffects fs = [Effect.print "Error: sense_read_counts not found."] ∧
    writePaths (mainEffects fs) = [] := by
  unfold mainEffects
  rw [h]
  exact ⟨rfl, rfl⟩

/-- Witness for C10 on an empty filesystem. -/
theorem c10_witness :
    mainEffects (fun _ => none) = [Effect.print "Error: sense_read_counts not found."] :=
  (c10_missing_input (fun _ => none) rfl).1

/-! ### Index-access helper lemmas -/

lemma getD_map_of_lt {α β : Type} (f : α → β) (l : List α) (i : ℕ) (d : β) (d0 : α)
    (h : i < l.length) : (l.map f).getD i d = f (l.getD i d0) := by
  have h1 : i < (l.map f).length := by simpa using h
  rw [List.getD_eq_getElem _ _ h1, List.getD_eq_getElem _ _ h, List.getElem_map]

lemma getD_zipWith_of_lt {α β γ : Type} (f : α → β → γ) (as : List α) (bs : List β)
    (i : ℕ) (d : γ) (da : α) (db : β) (ha : i < as.length) (hb : i < bs.length) :
    (List.zipWith f as bs).getD i d = f (as.getD i da) (bs.getD i db) := by
  have h1 : i < (List.zipWith f as bs).length := by
    rw [List.length_zipWith]
    omega
  rw [List.getD_eq_getElem _ _ h1, List.getD_eq_getElem _ _ ha, List.getD_eq_getElem _ _ hb,
    List.getElem_zipWith]

lemma getD_range_of_lt (n i : ℕ) (h : i < n) : (List.range n).getD i 0 = i := by
  have h1 : i < (List.range n).length := by simpa using h
  rw [List.getD_eq_getElem _ _ h1, List.getElem_range]

lemma getD_mem_of_lt {α : Type} (l : List α) (i : ℕ) (d : α) (h : i < l.length) :
    l.getD i d ∈ l := by
  rw [List.getD_eq_getElem _ _ h]
  exact List.getElem_mem _

/-! ### Row-shape lemmas for the RPK and TPM matrices -/

lemma rpk_row_length (n : ℕ) :
    ∀ (ls : List ℚ) (rs : List (List ℚ)), (∀ r ∈ rs, r.length = n) →
      ∀ r ∈ List.zipWith (fun len row => row.map (fun c => c / (len / 1000))) ls rs,
        r.length = n := by
  intro ls
  induction ls with
  | nil =>
    intro rs _ r hr
    simp at hr
  | cons a as ih =>
    intro rs hrs r hr
    cases rs with
    | nil => simp at hr
    | cons b bs =>
      rw [List.zipWith_cons_cons, List.mem_cons] at hr
      rcases hr with hr | hr
      · rw [hr, List.length_map]
        exact hrs b (List.mem_cons_self b bs)
      · exact ih bs (fun r h => hrs r (List.mem_cons_of_mem b h)) r hr

lemma rpk_rows_length (df : CountsDF) (hrect : Rect df) :
    ∀ r ∈ rpkMatrix df, r.length = df.sampleNames.length :=
  rpk_row_length df.sampleNames.length df.lengths df.rows hrect.2.2

lemma length_rpkMatrix (df : CountsDF) (hrect : Rect df) :
    (rpkMatrix df).length = df.geneIds.length := by
  unfold rpkMatrix
  rw [List.length_zipWith, hrect.2.1, hrect.1]
  omega

lemma tpm_rows_length (df : CountsDF) (hrect : Rect df) :
    ∀ r ∈ tpmMatrix df, r.length = df.sampleNames.length := by
  intro r hr
  unfold tpmMatrix at hr
  rw [List.mem_map] at hr
  obtain ⟨row, hrow, rfl⟩ := hr
  rw [List.length_zipWith, rpk_rows_length df hrect row hrow]
  simp [sfList]

lemma length_tpmMatrix (df : CountsDF) (hrect : Rect df) :
    (tpmMatrix df).length = df.geneIds.length := by
  unfold tpmMatrix
  rw [List.length_map, length_rpkMatrix df hrect]

lemma sfList_getD (df : CountsDF) (j : ℕ) (hj : j < df.sampleNames.length) :
    (sfList df).getD j 0 = scalingFactor df j := by
  unfold sfList
  rw [getD_map_of_lt _ _ _ _ 0 (by simpa using hj), getD_range_of_lt _ _ hj]

/-! ### C8: TPM columns sum to exactly one million -/

/-- C8: under exact rational arithmetic, every sample column of the
intermediate TPM matrix of `calculate_log2_tpm` sums to exactly
1,000,000, provided the gene lengths are nonzero and the column's
reads-per-kilobase sum is nonzero. -/
theorem c8_tpm_column_sums_to_million (df : CountsDF) (j : ℕ)
    (hrect : Rect df) (hj : j < df.sampleNames.length)
    (hlen : ∀ x ∈ df.lengths, x ≠ 0)
    (hS : colSum (rpkMatrix df) j ≠ 0) :
    colSum (tpmMatrix df) j = 1000000 := by
  unfold tpmMatrix colSum
  rw [List.map_map]
  have hcong : (rpkMatrix df).map
        ((fun r => r.getD j 0) ∘ fun row => List.zipWith (fun x s => x / s) row (sfList df)) =
      (rpkMatrix df).map (fun row => row.getD j 0 * (scalingFactor df j)⁻¹) := by
    apply List.map_congr_left
    intro row hrow
    have hl : j < row.length := by
      rw [rpk_rows_length df hrect row hrow]
      exact hj
    have hsl : j < (sfList df).length := by
      simpa [sfList] using hj
    simp only [Function.comp]
    rw [getD_zipWith_of_lt _ _ _ _ _ 0 0 hl hsl, sfList_getD df j hj, div_eq_mul_inv]
  rw [hcong, List.sum_map_mul_right]
  have hsum : ((rpkMatrix df).map (fun r => r.getD j 0)).sum = colSum (rpkMatrix df) j := rfl
  rw [hsum]
  unfold scalingFactor at *
  field_simp

/-- Witness for C8 at a concrete dataframe and column. -/
theorem c8_witness : colSum (tpmMatrix exampleDF) 0 = 1000000 :=
  c8_tpm_column_sums_to_million exampleDF 0 (by decide) (by decide)
    (by norm_num [exampleDF]) (by norm_num [colSum, rpkMatrix, exampleDF])

/-! ### C1: what `calculate_log2_tpm` actually returns -/

lemma rpk_entry (df : CountsDF) (g j : ℕ) (hrect : Rect df)
    (hg : g < df.geneIds.length) (hj : j < df.sampleNames.length) :
    ((rpkMatrix df).getD g []).getD j 0 = rpkClaim df g j := by
  obtain ⟨hr1, hr2, hr3⟩ := hrect
  unfold rpkMatrix rpkClaim countAt lengthAt
  have hga : g < df.lengths.length := by omega
  have hgb : g < df.rows.length := by omega
  rw [getD_zipWith_of_lt _ _ _ _ _ 0 [] hga hgb]
  have hlenrow : j < (df.rows.getD g []).length := by
    rw [hr3 _ (getD_mem_of_lt _ _ _ hgb)]
    exact hj
  rw [getD_map_of_lt _ _ _ _ 0 hlenrow]

lemma colSum_rpk_eq_claim (df : CountsDF) (j : ℕ) (hrect : Rect df)
    (hj : j < df.sampleNames.length) :
    colSum (rpkMatrix df) j =
      ((List.range df.geneIds.length).map (fun i => rpkClaim df i j)).sum := by
  unfold colSum
  congr 1
  apply List.ext_getElem
  · rw [List.length_map, List.length_map, List.length_range, length_rpkMatrix df hrect]
  · intro i h1 h2
    rw [List.getElem_map, List.getElem_map, List.getElem_range]
    have hi : i < (rpkMatrix df).length := by simpa using h1
    have hin : i < df.geneIds.length := by rwa [length_rpkMatrix df hrect] at hi
    rw [← List.getD_eq_getElem _ [] hi]
    exact rpk_entry df i j hrect hin hj

lemma tpm_entry (df : CountsDF) (g j : ℕ) (hrect : Rect df)
    (hg : g < df.geneIds.length) (hj : j < df.sampleNames.length) :
    ((tpmMatrix df).getD g []).getD j 0 = tpmClaim df g j := by
  unfold tpmMatrix tpmClaim
  have hglen : g < (rpkMatrix df).length := by
    rw [length_rpkMatrix df hrect]
    exact hg
  rw [getD_map_of_lt _ _ _ _ [] hglen]
  have hrowlen : j < ((rpkMatrix df).getD g []).length := by
    rw [rpk_rows_length df hrect _ (getD_mem_of_lt _ _ _ hglen)]
    exact hj
  have hsflen : j < (sfList df).length := by
    simpa [sfList] using hj
  rw [getD_zipWith_of_lt _ _ _ _ _ 0 0 hrowlen hsflen, sfList_getD df j hj,
    rpk_entry df g j hrect hg hj]
  unfold scalingFactor
  rw [colSum_rpk_eq_claim df j hrect hj]

/-- The dataframe of the C1 counterexample: one gene of length 1000 with
a single count of 1, so its TPM is exactly 1,000,000. -/
def cexDF : CountsDF :=
  { geneIds := ["g1"]
    lengths := [1000]
    sampleNames := ["s1"]
    rows := [[1]] }

/-- C1 counterexample: `calculate_log2_tpm` does not return the base-2
logarithm of the TPM value: at `cexDF` the returned entry is
`log2(TPM + 1)`, which differs from `log2(TPM)`. -/
theorem c1_counterexample :
    logAt (calculate_log2_tpm cexDF) 0 0 ≠ Real.logb 2 ((tpmClaim cexDF 0 0 : ℚ) : ℝ) := by
  have ht : tpmMatrix cexDF = [[1000000]] := by
    norm_num [tpmMatrix, rpkMatrix, sfList, scalingFactor, colSum, cexDF,
      List.range_succ, List.range_zero]
  have h1 : logAt (calculate_log2_tpm cexDF) 0 0 = Real.logb 2 (((1000000 : ℚ) : ℝ) + 1) := by
    unfold logAt calculate_log2_tpm
    rw [ht]
    simp
  have h2 : tpmClaim cexDF 0 0 = 1000000 := by
    norm_num [tpmClaim, rpkClaim, countAt, lengthAt, cexDF, List.range_succ,
      List.range_zero]
  rw [h1, h2]
  have hlt : Real.logb 2 ((1000000 : ℚ) : ℝ) < Real.logb 2 (((1000000 : ℚ) : ℝ) + 1) :=
    Real.logb_lt_logb (by norm_num) (by norm_num) (by norm_num)
  exact (ne_of_gt hlt)

/-- C1 as amended: for every well-formed dataframe with nonzero gene
lengths and nonzero per-column reads-per-kilobase sums,
`calculate_log2_tpm` returns, for each gene and sample, the base-2
logarithm of (that gene's TPM value plus a pseudocount of 1), where TPM
is reads-per-kilobase divided by (the column's reads-per-kilobase sum
divided by 1e6). -/
theorem c1_amended_log2_tpm_plus_one (df : CountsDF) (g j : ℕ)
    (hrect : Rect df) (hg : g < df.geneIds.length) (hj : j < df.sampleNames.length)
    (hlen : ∀ x ∈ df.lengths, x ≠ 0)
    (hS : colSum (rpkMatrix df) j ≠ 0) :
    logAt (calculate_log2_tpm df) g j = Real.logb 2 (((tpmClaim df g j : ℚ) : ℝ) + 1) := by
  unfold logAt calculate_log2_tpm
  have hglen : g < (tpmMatrix df).length := by
    rw [length_tpmMatrix df hrect]
    exact hg
  rw [getD_map_of_lt _ _ _ _ [] hglen]
  have hrowlen : j < ((tpmMatrix df).getD g []).length := by
    rw [tpm_rows_length df hrect _ (getD_mem_of_lt _ _ _ hglen)]
    exact hj
  rw [getD_map_of_lt _ _ _ _ 0 hrowlen, tpm_entry df g j hrect hg hj]

/-- Witness for the amended C1 at a concrete dataframe entry. -/
theorem c1_witness :
    logAt (calculate_log2_tpm exampleDF) 1 0 =
      Real.logb 2 (((tpmClaim exampleDF 1 0 : ℚ) : ℝ) + 1) :=
  c1_amended_log2_tpm_plus_one exampleDF 1 0 (by decide) (by decide) (by decide)
    (by norm_num [exampleDF]) (by norm_num [colSum, rpkMatrix, exampleDF])

/-! ### Enumeration and trace-list lemmas -/

lemma length_enumFromN : ∀ (l : List String) (k : ℕ), (enumFromN k l).length = l.length := by
  intro l
  induction l with
  | nil => intro k; rfl
  | cons a l ih =>
    intro k
    simp [enumFromN, ih]

lemma getD_enumFromN : ∀ (l : List String) (k i : ℕ), i < l.length →
    (enumFromN k l).getD i (0, "") = (k + i, l.getD i "") := by
  intro l
  induction l with
  | nil =>
    intro k i hi
    simp at hi
  | cons a l ih =>
    intro k i hi
    cases i with
    | zero => simp [enumFromN]
    | succ n =>
      have h3 : k + (n + 1) = (k + 1) + n := by omega
      rw [h3]
      simp only [enumFromN, List.getD_cons_succ]
      exact ih (k + 1) n (by simpa using hi)

lemma length_tracesAux (stats : List StatRow) :
    ∀ (gs : List String) (k : ℕ), (tracesAux stats k gs).length = 2 * gs.length := by
  intro gs
  induction gs with
  | nil => intro k; rfl
  | cons g gs ih =>
    intro k
    simp only [tracesAux, List.length_cons, ih, List.length_cons]
    omega

lemma getD_tracesAux_even (stats : List StatRow) :
    ∀ (gs : List String) (k i : ℕ), i < gs.length →
      (tracesAux stats k gs).getD (2 * i) trace0 =
        ribbonTrace (k + i) (gs.getD i "") (geneStats stats (gs.getD i "")) := by
  intro gs
  induction gs with
  | nil =>
    intro k i hi
    simp at hi
  | cons g gs ih =>
    intro k i hi
    cases i with
    | zero => simp [tracesAux]
    | succ n =>
      have h2 : 2 * (n + 1) = 2 * n + 1 + 1 := by omega
      have h3 : k + (n + 1) = (k + 1) + n := by omega
      rw [h2, h3]
      simp only [tracesAux, List.getD_cons_succ]
      exact ih (k + 1) n (by simpa using hi)

lemma getD_tracesAux_odd (stats : List StatRow) :
    ∀ (gs : List String) (k i : ℕ), i < gs.length →
      (tracesAux stats k gs).getD (2 * i + 1) trace0 =
        lineTrace (k + i) (gs.getD i "") (geneStats stats (gs.getD i "")) := by
  intro gs
  induction gs with
  | nil =>
    intro k i hi
    simp at hi
  | cons g gs ih =>
    intro k i hi
    cases i with
    | zero => simp [tracesAux]
    | succ n =>
      have h2 : 2 * (n + 1) + 1 = (2 * n + 1) + 1 + 1 := by omega
      have h3 : k + (n + 1) = (k + 1) + n := by omega
      rw [h2, h3]
      simp only [tracesAux, List.getD_cons_succ]
      exact ih (k + 1) n (by simpa using hi)

/-! ### C5: dropdown button visibility arrays -/

/-- C5: the `i`-th dropdown button's visibility array has length equal to
the total number of traces and is `True` exactly at indices `2*i` and
`2*i + 1` (the gene's ribbon trace and mean-line trace). -/
theorem c5_button_visibility (stats : List StatRow) (i : ℕ)
    (hi : i < (shownGenes stats).length) :
    ((buttonsOf stats).getD i button0).visibility.length = (tracesOf stats).length ∧
    ∀ j, j < (tracesOf stats).length →
      (((buttonsOf stats).getD i button0).visibility.getD j false = true ↔
        (j = 2 * i ∨ j = 2 * i + 1)) := by
  have htotal : (tracesOf stats).length = 2 * (shownGenes stats).length :=
    length_tracesAux stats (shownGenes stats) 0
  have hbtn : (buttonsOf stats).getD i button0 =
      mkButton (tracesOf stats).length i ((shownGenes stats).getD i "") := by
    unfold buttonsOf
    rw [getD_map_of_lt _ _ _ _ (0, "") (by rw [length_enumFromN]; exact hi),
      getD_enumFromN _ 0 i hi]
    simp
  rw [hbtn]
  unfold mkButton
  constructor
  · simp
  · intro j hj
    simp only []
    have hjlen : j < (((List.replicate (tracesOf stats).length false).set (i * 2) true).set
        (i * 2 + 1) true).length := by
      simpa using hj
    rw [List.getD_eq_getElem _ _ hjlen]
    by_cases h1 : i * 2 + 1 = j
    · subst h1
      rw [List.getElem_set_self]
      simp only [true_iff]
      omega
    · rw [List.getElem_set_ne h1]
      by_cases h0 : i * 2 = j
      · subst h0
        rw [List.getElem_set_self]
        simp only [true_iff]
        omega
      · rw [List.getElem_set_ne h0, List.getElem_replicate]
        simp only [Bool.false_eq_true, false_iff]
        omega

/-- Concrete statistics rows used by the structural witnesses. -/
noncomputable def exampleStats : List StatRow :=
  [{ gene := "g1", cond := "d04", mean := 1, std := none, day := 4 },
   { gene := "g1", cond := "d07", mean := 2, std := none, day := 7 },
   { gene := "g2", cond := "d04", mean := 3, std := none, day := 4 }]

/-- Witness for C5 at a concrete statistics table. -/
theorem c5_witness :
    ((buttonsOf exampleStats).getD 0 button0).visibility.length =
      (tracesOf exampleStats).length ∧
    (((buttonsOf exampleStats).getD 0 button0).visibility.getD 1 false = true ↔
      (1 = 2 * 0 ∨ 1 = 2 * 0 + 1)) := by
  have h := c5_button_visibility exampleStats 0 (by decide)
  exact ⟨h.1, h.2 1 (by decide)⟩

/-! ### C9: trace counts and initial visibility -/

/-- C9: the dashboard shows at most the first 200 unique genes in order
of first appearance, each contributing a ribbon trace followed by a
mean-line trace, so there are `2 * min(#genes, 200)` traces and
`min(#genes, 200)` buttons, and only the first gene's pair of traces is
initially visible. -/
theorem c9_trace_structure (stats : List StatRow) :
    shownGenes stats = (uniqueGenes stats).take 200 ∧
    (tracesOf stats).length = 2 * min (uniqueGenes stats).length 200 ∧
    (buttonsOf stats).length = min (uniqueGenes stats).length 200 ∧
    (∀ i, i < (shownGenes stats).length →
      (tracesOf stats).getD (2 * i) trace0 =
        ribbonTrace i ((shownGenes stats).getD i "")
          (geneStats stats ((shownGenes stats).getD i "")) ∧
      (tracesOf stats).getD (2 * i + 1) trace0 =
        lineTrace i ((shownGenes stats).getD i "")
          (geneStats stats ((shownGenes stats).getD i ""))) ∧
    (∀ j, j < (tracesOf stats).length →
      (((tracesOf stats).getD j trace0).visible = true ↔ j < 2)) := by
  have hlen : (shownGenes stats).length = min (uniqueGenes stats).length 200 := by
    unfold shownGenes
    rw [List.length_take]
    omega
  have htotal : (tracesOf stats).length = 2 * (shownGenes stats).length :=
    length_tracesAux stats (shownGenes stats) 0
  refine ⟨rfl, by rw [htotal, hlen], ?_, ?_, ?_⟩
  · unfold buttonsOf
    rw [List.length_map, length_enumFromN, hlen]
  · intro i hi
    constructor
    · have h := getD_tracesAux_even stats (shownGenes stats) 0 i hi
      simpa using h
    · have h := getD_tracesAux_odd stats (shownGenes stats) 0 i hi
      simpa using h
  · intro j hj
    rcases Nat.even_or_odd j with ⟨i, hji⟩ | ⟨i, hji⟩
    · have hi : i < (shownGenes stats).length := by omega
      have h := getD_tracesAux_even stats (shownGenes stats) 0 i hi
      have hj2 : j = 2 * i := by omega
      rw [hj2]
      simp only [Nat.zero_add] at h
      unfold tracesOf
      rw [h]
      unfold ribbonTrace
      simp only [decide_eq_true_eq]
      omega
    · have hi : i < (shownGenes stats).length := by omega
      have h := getD_tracesAux_odd stats (shownGenes stats) 0 i hi
      have hj2 : j = 2 * i + 1 := by omega
      rw [hj2]
      simp only [Nat.zero_add] at h
      unfold tracesOf
      rw [h]
      unfold lineTrace
      simp only [decide_eq_true_eq]
      omega

/-- Witness for C9's bounded quantifiers at a concrete table. -/
theorem c9_witness :
    (tracesOf exampleStats).length = 2 * min (uniqueGenes exampleStats).length 200 ∧
    (((tracesOf exampleStats).getD 0 trace0).visible = true ↔ 0 < 2) := by
  have h := c9_trace_structure exampleStats
  exact ⟨h.2.1, h.2.2.2.2 0 (by decide)⟩

/-! ### C6: conditions are plotted in ascending day order -/

lemma statsOf_day (t : TPMResult) : ∀ r ∈ statsOf t, r.day = dayOf r.cond := by
  intro r hr
  unfold statsOf at hr
  rw [List.mem_map] at hr
  obtain ⟨k, _, rfl⟩ := hr
  rfl

/-- C6: within every gene's plotted traces the conditions appear in
ascending order of the integer extracted from the condition name, under
the precondition that every condition name contains digits; the mean-line
trace's x axis is exactly that condition list. -/
theorem c6_time_series_order (t : TPMResult)
    (hdig : ∀ r ∈ statsOf t, (dayOf? r.cond).isSome = true) (g : String) :
    List.Sorted (fun a b => dayOf a ≤ dayOf b)
      ((geneStats (sortedStats t) g).map (fun r => r.cond)) ∧
    ∀ i, (lineTrace i g (geneStats (sortedStats t) g)).x =
      (geneStats (sortedStats t) g).map (fun r => r.cond) := by
  constructor
  · have hs : List.Sorted rowLE (sortedStats t) :=
      List.sorted_insertionSort rowLE (statsOf t)
    have hf : List.Pairwise rowLE (geneStats (sortedStats t) g) :=
      List.Pairwise.sublist (List.filter_sublist _) hs
    have hgene : ∀ r ∈ geneStats (sortedStats t) g, r.gene = g := by
      intro r hr
      unfold geneStats at hr
      rw [List.mem_filter] at hr
      simpa using hr.2
    have hday : ∀ r ∈ geneStats (sortedStats t) g, r.day = dayOf r.cond := by
      intro r hr
      apply statsOf_day t
      have h1 : r ∈ sortedStats t := List.mem_of_mem_filter hr
      unfold sortedStats at h1
      rwa [List.mem_insertionSort] at h1
    show List.Pairwise _ _
    rw [List.pairwise_map]
    refine List.Pairwise.imp_of_mem ?_ hf
    intro a b ha hb hab
    rcases hab with hlt | ⟨_, hle⟩
    · rw [hgene a ha, hgene b hb] at hlt
      rw [strLTb_irrefl g] at hlt
      exact Bool.noConfusion hlt
    · rw [← hday a ha, ← hday b hb]
      exact hle
  · intro i
    rfl

/-- A concrete log2TPM table used by the C4 and C6 witnesses. -/
noncomputable def exampleT : TPMResult :=
  { geneIds := ["g1", "g2"]
    sampleNames := ["d04_rep1", "d04_rep2"]
    values := [[1, 2], [3, 4]] }

/-- Witness for C6 at a concrete table. -/
theorem c6_witness :
    List.Sorted (fun a b => dayOf a ≤ dayOf b)
      ((geneStats (sortedStats exampleT) "g1").map (fun r => r.cond)) :=
  (c6_time_series_order exampleT (by decide) "g1").1

/-! ### C4: aggregation by condition -/

lemma mem_firstDedupAux {α : Type} [DecidableEq α] :
    ∀ (l seen : List α) (x : α), x ∈ firstDedupAux seen l ↔ (x ∈ l ∧ x ∉ seen) := by
  intro l
  induction l with
  | nil =>
    intro seen x
    simp [firstDedupAux]
  | cons a l ih =>
    intro seen x
    by_cases ha : a ∈ seen
    · rw [show firstDedupAux seen (a :: l) = firstDedupAux seen l from by
        simp [firstDedupAux, ha]]
      rw [ih seen x]
      constructor
      · rintro ⟨h1, h2⟩
        exact ⟨List.mem_cons_of_mem a h1, h2⟩
      · rintro ⟨h1, h2⟩
        rcases List.mem_cons.mp h1 with rfl | h1
        · exact absurd ha h2
        · exact ⟨h1, h2⟩
    · rw [show firstDedupAux seen (a :: l) = a :: firstDedupAux (a :: seen) l from by
        simp [firstDedupAux, ha]]
      rw [List.mem_cons, ih (a :: seen) x]
      constructor
      · rintro (rfl | ⟨h1, h2⟩)
        · exact ⟨List.mem_cons_self _ _, ha⟩
        · exact ⟨List.mem_cons_of_mem a h1, fun hx => h2 (List.mem_cons_of_mem a hx)⟩
      · rintro ⟨h1, h2⟩
        rcases List.mem_cons.mp h1 with rfl | h1
        · exact Or.inl rfl
        · by_cases hxa : x = a
          · exact Or.inl hxa
          · refine Or.inr ⟨h1, fun hx => ?_⟩
            rcases List.mem_cons.mp hx with h | h
            · exact hxa h
            · exact h2 h

lemma nodup_firstDedupAux {α : Type} [DecidableEq α] :
    ∀ (l seen : List α), (firstDedupAux seen l).Nodup := by
  intro l
  induction l with
  | nil =>
    intro seen
    simp [firstDedupAux]
  | cons a l ih =>
    intro seen
    by_cases ha : a ∈ seen
    · simpa [firstDedupAux, ha] using ih seen
    · rw [show firstDedupAux seen (a :: l) = a :: firstDedupAux (a :: seen) l from by
        simp [firstDedupAux, ha]]
      rw [List.nodup_cons]
      refine ⟨fun hmem => ?_, ih (a :: seen)⟩
      rw [mem_firstDedupAux] at hmem
      exact hmem.2 (List.mem_cons_self a seen)

lemma mem_firstDedup {α : Type} [DecidableEq α] (l : List α) (x : α) :
    x ∈ firstDedup l ↔ x ∈ l := by
  unfold firstDedup
  rw [mem_firstDedupAux]
  simp

lemma nodup_firstDedup {α : Type} [DecidableEq α] (l : List α) :
    (firstDedup l).Nodup :=
  nodup_firstDedupAux l []

lemma nodup_groupKeysOf (t : TPMResult) : (groupKeysOf t).Nodup := by
  unfold groupKeysOf
  exact ((List.perm_insertionSort keyLE _).symm).nodup (nodup_firstDedup _)

lemma mem_groupKeysOf (t : TPMResult) (k : String × String) :
    k ∈ groupKeysOf t ↔ k ∈ meltKeys t := by
  unfold groupKeysOf
  rw [List.mem_insertionSort, mem_firstDedup]

lemma nodup_filter_eq_singleton {α : Type} (p : α → Bool) :
    ∀ (l : List α) (k : α), l.Nodup → k ∈ l → (∀ x, p x = true ↔ x = k) →
      l.filter p = [k] := by
  intro l
  induction l with
  | nil =>
    intro k _ hk _
    simp at hk
  | cons a l ih =>
    intro k hnd hk hp
    rw [List.nodup_cons] at hnd
    by_cases hak : a = k
    · subst hak
      rw [List.filter_cons_of_pos ((hp a).mpr rfl)]
      have hnil : l.filter p = [] := by
        rw [List.filter_eq_nil_iff]
        intro x hx hpx
        exact hnd.1 (((hp x).mp hpx) ▸ hx)
      rw [hnil]
    · have hk2 : k ∈ l := by
        rcases List.mem_cons.mp hk with rfl | h
        · exact absurd rfl hak
        · exact h
      rw [List.filter_cons_of_neg (fun h => hak ((hp a).mp h))]
      exact ih k hnd.2 hk2 hp

lemma mem_meltAux_fst :
    ∀ (ns genes : List String) (m : List (List ℝ)) (r : String × String × ℝ),
      r ∈ meltAux genes m ns → r.1 ∈ genes := by
  intro ns
  induction ns with
  | nil =>
    intro genes m r hr
    simp [meltAux] at hr
  | cons s ns ih =>
    intro genes m r hr
    simp only [meltAux, List.mem_append] at hr
    rcases hr with hr | hr
    · rw [List.mem_map] at hr
      obtain ⟨q, hq, rfl⟩ := hr
      exact (List.of_mem_zip hq).1
    · exact ih genes _ r hr

lemma zip_filter_fst_singleton {β : Type} :
    ∀ (genes : List String) (col : List β) (g : String) (d : β),
      genes.Nodup → g ∈ genes → genes.length = col.length →
      (genes.zip col).filter (fun q => decide (q.1 = g)) =
        [(g, col.getD (genes.indexOf g) d)] := by
  intro genes
  induction genes with
  | nil =>
    intro col g d _ hg _
    simp at hg
  | cons a gs ih =>
    intro col g d hnd hg hlen
    cases col with
    | nil => simp at hlen
    | cons x xs =>
      rw [List.nodup_cons] at hnd
      rw [List.zip_cons_cons]
      by_cases hag : a = g
      · subst hag
        rw [List.filter_cons_of_pos (by simp)]
        have hrest : (gs.zip xs).filter (fun q => decide (q.1 = a)) = [] := by
          rw [List.filter_eq_nil_iff]
          intro q hq hpq
          simp only [decide_eq_true_eq] at hpq
          exact hnd.1 (hpq ▸ (List.of_mem_zip hq).1)
        rw [hrest, List.indexOf_cons_self]
        rfl
      · rw [List.filter_cons_of_neg (by simp [hag])]
        have hg2 : g ∈ gs := by
          rcases List.mem_cons.mp hg with rfl | h
          · exact absurd rfl hag
          · exact h
        rw [List.indexOf_cons_ne _ hag]
        simp only [Nat.succ_eq_add_one, List.getD_cons_succ]
        exact ih xs g d hnd.2 hg2 (by simpa using hlen)

lemma meltAux_filter_select :
    ∀ (ns genes : List String) (m : List (List ℝ)) (g c : String),
      genes.Nodup → g ∈ genes → m.length = genes.length →
      ((meltAux genes m ns).filter
          (fun r => decide (r.1 = g ∧ conditionOf r.2.1 = c))).map
        (fun r => r.2.2) =
      selectCols c ns (m.getD (genes.indexOf g) []) := by
  intro ns
  induction ns with
  | nil =>
    intro genes m g c _ _ _
    simp [meltAux, selectCols]
  | cons s ns ih =>
    intro genes m g c hnd hg hlen
    have hidx : genes.indexOf g < m.length := by
      rw [hlen]
      exact List.indexOf_lt_length.mpr hg
    have htail : (m.map (fun r => r.tail)).getD (genes.indexOf g) [] =
        (m.getD (genes.indexOf g) []).tail :=
      getD_map_of_lt _ _ _ _ [] hidx
    have hhead : (m.map (fun r => r.headD 0)).getD (genes.indexOf g) 0 =
        (m.getD (genes.indexOf g) []).headD 0 :=
      getD_map_of_lt _ _ _ _ [] hidx
    simp only [meltAux, List.filter_append, List.map_append]
    rw [List.filter_map]
    by_cases hc : conditionOf s = c
    · have hpred : ((fun r : String × String × ℝ => decide (r.1 = g ∧ conditionOf r.2.1 = c)) ∘
          (fun q : String × ℝ => (q.1, s, q.2))) = fun q : String × ℝ => decide (q.1 = g) := by
        funext q
        simp [Function.comp, hc]
      rw [hpred, zip_filter_fst_singleton genes (m.map (fun r => r.headD 0)) g 0 hnd hg
        (by rw [List.length_map]; omega)]
      simp only [List.map_cons, List.map_nil, List.singleton_append]
      rw [hhead, ih genes (m.map (fun r => r.tail)) g c hnd hg (by rw [List.length_map]; omega),
        htail]
      simp [selectCols, hc]
    · have hpred : ((fun r : String × String × ℝ => decide (r.1 = g ∧ conditionOf r.2.1 = c)) ∘
          (fun q : String × ℝ => (q.1, s, q.2))) = fun _ : String × ℝ => false := by
        funext q
        simp [Function.comp, hc]
      rw [hpred]
      simp only [List.filter_false, List.map_nil, List.nil_append]
      rw [ih genes (m.map (fun r => r.tail)) g c hnd hg (by rw [List.length_map]; omega),
        htail]
      simp [selectCols, hc]

lemma statsOf_filter_key (t : TPMResult) (g c : String)
    (hk : (g, c) ∈ groupKeysOf t) :
    (statsOf t).filter (fun r => decide (r.gene = g ∧ r.cond = c)) =
      [mkStatRow t (g, c)] := by
  unfold statsOf
  rw [List.filter_map]
  have hpred : ((fun r : StatRow => decide (r.gene = g ∧ r.cond = c)) ∘ mkStatRow t) =
      fun k : String × String => decide (k = (g, c)) := by
    funext k
    simp only [Function.comp_apply]
    rw [decide_eq_decide]
    simp [mkStatRow, Prod.ext_iff]
  rw [hpred, nodup_filter_eq_singleton _ (groupKeysOf t) (g, c) (nodup_groupKeysOf t) hk
    (fun x => by simp)]
  rfl

lemma sortedStats_filter_key (t : TPMResult) (g c : String)
    (hk : (g, c) ∈ groupKeysOf t) :
    (sortedStats t).filter (fun r => decide (r.gene = g ∧ r.cond = c)) =
      [mkStatRow t (g, c)] := by
  unfold sortedStats
  have hperm := (List.perm_insertionSort rowLE (statsOf t)).filter
    (fun r => decide (r.gene = g ∧ r.cond = c))
  rw [statsOf_filter_key t g c hk] at hperm
  exact List.perm_singleton.mp hperm

lemma sampleVar_of_short (l : List ℝ) (h : l.length ≤ 1) : sampleVar l = 0 := by
  cases l with
  | nil => norm_num [sampleVar, listMean]
  | cons x xs =>
    cases xs with
    | nil => norm_num [sampleVar, listMean]
    | cons y ys => simp at h

lemma stdOpt_getD (l : List ℝ) :
    (stdOpt l).getD 0 = Real.sqrt (sampleVar l) := by
  unfold stdOpt
  by_cases h : l.length ≤ 1
  · rw [if_pos h, sampleVar_of_short l h, Real.sqrt_zero]
    rfl
  · rw [if_neg h]
    rfl

/-- C4: for every gene and condition that occur in the data, the
aggregated statistics used for plotting are the arithmetic mean and the
sample standard deviation of the log2TPM values taken over exactly those
sample columns whose name prefix before the first underscore equals that
condition: the sorted statistics table has exactly one row for the key,
its aggregated value list is the gene's value at exactly the matching
columns, its mean is the arithmetic mean, and its plotted standard
deviation is the sample standard deviation (`some` of it whenever at
least two replicates exist, and its `fillna(0)` value in general). -/
theorem c4_condition_aggregation (t : TPMResult)
    (hrow : t.values.length = t.geneIds.length)
    (hnd : t.geneIds.Nodup)
    (g c : String) (hk : (g, c) ∈ groupKeysOf t) :
    condVals t g c = selectCols c t.sampleNames (rowFor t g) ∧
    (sortedStats t).filter (fun r => decide (r.gene = g ∧ r.cond = c)) =
      [mkStatRow t (g, c)] ∧
    (mkStatRow t (g, c)).mean = listMean (condVals t g c) ∧
    (mkStatRow t (g, c)).std.getD 0 = Real.sqrt (sampleVar (condVals t g c)) ∧
    (2 ≤ (condVals t g c).length →
      (mkStatRow t (g, c)).std = some (Real.sqrt (sampleVar (condVals t g c)))) := by
  have hgmem : g ∈ t.geneIds := by
    rw [mem_groupKeysOf] at hk
    unfold meltKeys at hk
    rw [List.mem_map] at hk
    obtain ⟨r, hr, hkey⟩ := hk
    have h1 := mem_meltAux_fst t.sampleNames t.geneIds t.values r hr
    have h2 : r.1 = g := congrArg Prod.fst hkey
    rwa [h2] at h1
  refine ⟨?_, sortedStats_filter_key t g c hk, rfl, stdOpt_getD _, ?_⟩
  · unfold condVals melt rowFor
    exact meltAux_filter_select t.sampleNames t.geneIds t.values g c hnd hgmem hrow
  · intro h2
    unfold mkStatRow stdOpt
    simp only []
    rw [if_neg (by omega)]

/-- Witness for C4 at a concrete table, gene and condition. -/
theorem c4_witness :
    condVals exampleT "g1" "d04" =
      selectCols "d04" exampleT.sampleNames (rowFor exampleT "g1") ∧
    (mkStatRow exampleT ("g1", "d04")).std =
      some (Real.sqrt (sampleVar (condVals exampleT "g1" "d04"))) := by
  have h := c4_condition_aggregation exampleT (by decide) (by decide) "g1" "d04" (by decide)
  exact ⟨h.1, h.2.2.2.2 (by decide)⟩

end SensePlot
